import Mathlib

/-!
Shallow embedding of the `gospf` SPF validation library (src/spf.go) in Lean 4.

The Go code performs DNS lookups through `net.LookupTXT`, `net.LookupIP` and
`net.LookupMX`; these external collaborators are modelled as a record of pure
functions (`DNS` below), each returning a Go-style `(value, error)` pair.
Go errors are modelled by the inductive `GoError`; the pointer comparison
`err == ErrNoSPFRecords` in the source becomes decidable equality with the
`errNoSPFRecords` constructor, and the freshly allocated
`errors.New("Too many SPF records found")` of `findSPFRecord` is the distinct
constructor `tooManySPFRecords`.

Go's unbounded recursion in `getIPsForRecord` (via `include:` mechanisms) and
in `parseOtherRecord` (the `mx` branch re-enters with record `"a"`) is made
total with an explicit fuel parameter, consumed once per loop iteration or
recursive call; exhausting fuel yields the model-only error `outOfFuel`,
which is never produced when the fuel exceeds the combined token count and
include-nesting depth of the inputs.

The Go `strings` functions the source uses (`Split`, `Replace`, `HasPrefix`,
`Contains`, `ToLower`, `TrimSpace`) are re-implemented here by structural
recursion over character lists so that every definition evaluates by kernel
reduction. The `net` IP functions (`ParseIP`, `ParseCIDR`,
`(*IPNet).Contains`) are modelled byte-for-byte after the standard library.

Each Lean definition is named after the Go function it embeds and mirrors its
control flow statement by statement; the per-call `Nat` that several
definitions return counts the TXT lookups issued (the observable the
specification's cache-idempotence property is stated in terms of).
-/

namespace Spf

/-- Model of the Go `error` values that can flow through src/spf.go. -/
inductive GoError where
  /-- `ErrNoSPFRecords` (src/spf.go line 12). -/
  | errNoSPFRecords : GoError
  /-- the error allocated by `findSPFRecord` (line 151), distinct from
      `ErrNoSPFRecords` under Go's pointer equality. -/
  | tooManySPFRecords : GoError
  /-- an error returned by one of the DNS lookup collaborators. -/
  | dnsFailure (msg : String) : GoError
  /-- a `net.ParseCIDR` failure, carrying the offending text. -/
  | cidrParseFailure (text : String) : GoError
  /-- `errors.New("Unknown Record for SPF")` (line 230). -/
  | unknownRecordForSPF : GoError
  /-- `errors.New("Email address either has not enough or too many @ symbols")`
      (line 136). -/
  | atSymbolCount : GoError
  /-- an error returned by the `mail.ParseAddress` collaborator. -/
  | addressSyntax (msg : String) : GoError
  /-- model-only: recursion fuel exhausted (Go would still be running). -/
  | outOfFuel : GoError
deriving DecidableEq, Repr

/-- The DNS collaborator: `net.LookupTXT`, `net.LookupIP` (already rendered to
strings, matching the `element.String()` calls on line 210) and `net.LookupMX`
(rendered to the `Host` fields, the only field the source reads). Each returns
a Go-style `(value, error)` pair. -/
structure DNS where
  lookupTXT : String → List String × Option GoError
  lookupIP : String → List String × Option GoError
  lookupMX : String → List String × Option GoError

/-- The `Cache map[string][]string` field of `spfChecker` (line 38), as an
association list; insertion prepends, lookup takes the first match. -/
abbrev Cache := List (String × List String)

/-- Go map read `sc.Cache[domain]` with its `ok` flag. -/
def cacheFind : Cache → String → Option (List String)
  | [], _ => none
  | (k, v) :: rest, d => if k = d then some v else cacheFind rest d

/-!
Model of the Go `strings` functions used by the source, by structural
recursion over `List Char`. All call sites pass non-empty separators and
patterns, for which these agree with the Go originals.
-/

/-- The remainder of `s` after the prefix `pre`, when `pre` is a prefix. -/
def dropPrefixChars? : List Char → List Char → Option (List Char)
  | [], s => some s
  | _ :: _, [] => none
  | p :: ps, c :: cs => if p = c then dropPrefixChars? ps cs else none

/-- `strings.HasPrefix(s, pre)`. -/
def goHasPrefix (s pre : String) : Bool :=
  (dropPrefixChars? pre.data s.data).isSome

/-- Splitting scan for `goSplit`; the `Nat` is the subject's length, consumed
once per character so the recursion is structural. -/
def splitCharsAux (sep : List Char) : Nat → List Char → List Char → List (List Char)
  | _, [], acc => [acc.reverse]
  | 0, s, acc => [acc.reverse ++ s]
  | gas + 1, c :: cs, acc =>
    match dropPrefixChars? sep (c :: cs) with
    | some rest => acc.reverse :: splitCharsAux sep gas rest []
    | none => splitCharsAux sep gas cs (c :: acc)

/-- `strings.Split(s, sep)` for non-empty `sep`: cut at every leftmost
occurrence, keeping empty fields. -/
def goSplit (s sep : String) : List String :=
  (splitCharsAux sep.data s.data.length s.data []).map String.mk

/-- Replacement scan for `goReplaceAll`, fueled like `splitCharsAux`. -/
def replaceCharsAux (old new : List Char) : Nat → List Char → List Char
  | _, [] => []
  | 0, s => s
  | gas + 1, c :: cs =>
    match dropPrefixChars? old (c :: cs) with
    | some rest => new ++ replaceCharsAux old new gas rest
    | none => c :: replaceCharsAux old new gas cs

/-- `strings.Replace(s, old, new, -1)` for non-empty `old`: replace every
occurrence, leftmost first. -/
def goReplaceAll (s old new : String) : String :=
  String.mk (replaceCharsAux old.data new.data s.data.length s.data)

/-- Occurrence test for `goContains`. -/
def containsCharsAux (sub : List Char) : List Char → Bool
  | [] => (dropPrefixChars? sub []).isSome
  | c :: cs => (dropPrefixChars? sub (c :: cs)).isSome || containsCharsAux sub cs

/-- `strings.Contains(s, sub)`. -/
def goContains (s sub : String) : Bool :=
  containsCharsAux sub.data s.data

/-- ASCII case mapping; the tokens the source lowercases are ASCII, on which
`unicode.ToLower` agrees with this. -/
def charToLower (c : Char) : Char :=
  if 'A' ≤ c ∧ c ≤ 'Z' then Char.ofNat (c.toNat + 32) else c

/-- `strings.ToLower`. -/
def goToLower (s : String) : String :=
  String.mk (s.data.map charToLower)

/-- Go's `asciiSpace` class; `strings.TrimSpace` additionally trims a few
Unicode spaces that never occur in parsed addresses. -/
def isGoSpace (c : Char) : Bool :=
  c = ' ' || c = '\t' || c = '\n' || c = Char.ofNat 11 || c = Char.ofNat 12 || c = '\r'

/-- `strings.TrimSpace`. -/
def goTrimSpace (s : String) : String :=
  String.mk (((s.data.dropWhile isGoSpace).reverse.dropWhile isGoSpace).reverse)

/-- Decimal parse of a whole string: every character a digit, at least one
(the shape `net`'s `dtoi` accepts when required to consume the full input). -/
def goToNat? (s : String) : Option Nat :=
  if s.data.isEmpty then none
  else if s.data.all Char.isDigit then
    some (s.data.foldl (fun n c => n * 10 + (c.toNat - 48)) 0)
  else none

/-- `findSPFRecord` (src/spf.go lines 143-154): keep the TXT records prefixed
by `v=spf1`; error out unless exactly one remains. -/
def findSPFRecord (txtRecords : List String) : List String × Option GoError :=
  let spfRecords := txtRecords.filter (fun record => goHasPrefix record "v=spf1")
  if spfRecords.length = 0 ∨ spfRecords.length > 1 then
    ([], some .tooManySPFRecords)
  else
    (spfRecords, none)

/-- `(*spfChecker).LookupSPFRecords` (src/spf.go lines 55-75). Returns the
Go `([]string, error)` pair, the updated cache, and the number of TXT lookups
issued (0 on a cache hit, 1 otherwise). -/
def LookupSPFRecords (dns : DNS) (cache : Cache) (domain : String) :
    (List String × Option GoError) × Cache × Nat :=
  match cacheFind cache domain with
  | some cached => ((cached, none), cache, 0)
  | none =>
    match dns.lookupTXT domain with
    | (_, some e) => (([], some e), cache, 1)
    | (txtRecords, none) =>
      if txtRecords.isEmpty then
        (([], some .errNoSPFRecords), cache, 1)
      else
        match findSPFRecord txtRecords with
        | (_, some e) => (([], some e), cache, 1)
        | (spfRs, none) =>
          if spfRs.isEmpty then
            (([], some .errNoSPFRecords), cache, 1)
          else
            ((spfRs, none), (domain, spfRs) :: cache, 1)

/-- `parseOtherRecord` (src/spf.go lines 202-231): expand an `a` or `mx`
token into the corresponding addresses. The `mx` branch re-invokes
`parseOtherRecord(host, "a")` for every MX host; its `for` loop is the fold,
whose state short-circuits once a Go `return` has happened. -/
def parseOtherRecord (dns : DNS) : Nat → String → String → List String × Option GoError
  | 0, _, _ => ([], some .outOfFuel)
  | fuel + 1, domain, record =>
    if record = "a" then
      match dns.lookupIP domain with
      | (_, some e) => ([], some e)
      | (ips, none) => (ips, none)
    else if record = "mx" then
      match dns.lookupMX domain with
      | (_, some e) => ([], some e)
      | (hosts, none) =>
        hosts.foldl
          (fun state host =>
            match state with
            | (_, some _) => state
            | (ipList, none) =>
              match parseOtherRecord dns fuel host "a" with
              | (_, some e) => ([], some e)
              | (mxARecords, none) => (ipList ++ mxARecords, none))
          ([], none)
    else
      ([], some .unknownRecordForSPF)

/-- The `for _, element := range spfSections` loop of `getIPsForRecord`
(src/spf.go lines 163-198), with the `cidrIPs` accumulator made explicit.
Returns the Go `([]string, error)` pair plus the number of TXT lookups
issued. The `include` branch inlines the recursive
`getIPsForRecord(record, spfRecord)` call as a loop over
`goSplit spfRecord " "` with a fresh accumulator, which is exactly that
call's definition; note that, as in the source (line 181), the error of the
recursive call is discarded. -/
def spfLoop (dns : DNS) : Nat → String → List String → List String →
    (List String × Option GoError) × Nat
  | 0, _, _, _ => (([], some .outOfFuel), 0)
  | fuel + 1, domain, cidrIPs, sections =>
    match sections with
    | [] => ((cidrIPs, none), 0)
    | element :: rest =>
      -- line 164: the source swaps the arguments of strings.HasPrefix here,
      -- testing whether `element` is a prefix of "v=spf1".
      if goHasPrefix "v=spf1" element then
        spfLoop dns fuel domain cidrIPs rest
      else if goHasPrefix element "ip4" then
        let cidr := goReplaceAll element "ip4:" ""
        spfLoop dns fuel domain (cidrIPs ++ [cidr]) rest
      else if goHasPrefix element "include" then
        let record := goReplaceAll element "include:" ""
        match dns.lookupTXT record with
        | (_, some e) => (([], some e), 1)
        | (txtRecords, none) =>
          match findSPFRecord txtRecords with
          | (_, some e) => (([], some e), 1)
          | (spfRecordList, none) =>
            let spfRecord := spfRecordList.headD ""
            let recursive := spfLoop dns fuel record [] (goSplit spfRecord " ")
            -- line 181: `recursiveList, err := getIPsForRecord(...)`; the
            -- returned err is never checked, so only the list is used.
            let recursiveList := recursive.1.1
            let cont := spfLoop dns fuel domain (cidrIPs ++ recursiveList) rest
            (cont.1, 1 + recursive.2 + cont.2)
      else if goToLower element = "a" ∨ goToLower element = "mx" then
        match parseOtherRecord dns fuel domain element with
        | (_, some e) => (([], some e), 0)
        | (otherRecord, none) => spfLoop dns fuel domain (cidrIPs ++ otherRecord) rest
      else
        spfLoop dns fuel domain cidrIPs rest

/-- `getIPsForRecord` (src/spf.go lines 156-200): split the policy on spaces
and run the mechanism loop with an empty accumulator. -/
def getIPsForRecord (dns : DNS) (fuel : Nat) (domain record : String) :
    (List String × Option GoError) × Nat :=
  spfLoop dns fuel domain [] (goSplit record " ")

/-!
Model of the Go standard library IP functions the source calls:
`net.ParseIP`, `net.ParseCIDR` and `(*net.IPNet).Contains`. IP addresses are
byte lists (length 4 or 16, `[]` standing for Go `nil`); parsing follows
`net/netip`'s grammar: dotted-quad fields of at most three digits without
leading zeros, hex groups of at most four digits, a single `::`, an optional
embedded dotted quad in the final position, zones (`%`) rejected as both
callers do.
-/

/-- Value of one dotted-quad field: 1-3 digits, no leading zero, at most 255. -/
def parseV4Field (s : String) : Option Nat :=
  if s.data.isEmpty then none
  else if ¬ s.data.all Char.isDigit then none
  else if s.data.length > 1 ∧ s.data.headD ' ' = '0' then none
  else
    match goToNat? s with
    | some n => if n ≤ 255 then some n else none
    | none => none

/-- `net/netip.parseIPv4`: exactly four fields split on dots. -/
def parseIPv4 (s : String) : Option (List Nat) :=
  match goSplit s "." with
  | [f1, f2, f3, f4] =>
    match parseV4Field f1, parseV4Field f2, parseV4Field f3, parseV4Field f4 with
    | some a, some b, some c, some d => some [a, b, c, d]
    | _, _, _, _ => none
  | _ => none

/-- Value of a hexadecimal digit character. -/
def hexVal (c : Char) : Option Nat :=
  if '0' ≤ c ∧ c ≤ '9' then some (c.toNat - 48)
  else if 'a' ≤ c ∧ c ≤ 'f' then some (c.toNat - 97 + 10)
  else if 'A' ≤ c ∧ c ≤ 'F' then some (c.toNat - 65 + 10)
  else none

/-- One IPv6 group: one to four hex digits. -/
def parseHexGroup (s : String) : Option Nat :=
  if s.data.isEmpty ∨ s.data.length > 4 then none
  else
    s.data.foldl
      (fun acc c =>
        match acc, hexVal c with
        | some n, some v => some (n * 16 + v)
        | _, _ => none)
      (some 0)

/-- Turn colon-separated IPv6 groups into bytes; `v4ok` says whether the final
group may be an embedded dotted quad (contributing four bytes). -/
def parseGroupsToBytes (v4ok : Bool) : List String → Option (List Nat)
  | [] => some []
  | [g] =>
    if goContains g "." then
      if v4ok then parseIPv4 g else none
    else
      (parseHexGroup g).map (fun v => [v / 256, v % 256])
  | g :: rest =>
    if goContains g "." then none
    else
      match parseHexGroup g, parseGroupsToBytes v4ok rest with
      | some v, some bs => some ([v / 256, v % 256] ++ bs)
      | _, _ => none

/-- `net/netip.parseIPv6`: at most one `::`, expanded with zero bytes; without
`::` the groups must cover exactly 16 bytes, with `::` strictly fewer. -/
def parseIPv6 (s : String) : Option (List Nat) :=
  if goContains s "%" then none
  else
    match goSplit s "::" with
    | [whole] =>
      match parseGroupsToBytes true (goSplit whole ":") with
      | some bs => if bs.length = 16 then some bs else none
      | none => none
    | [pre, post] =>
      let preGroups := if pre.data.isEmpty then [] else goSplit pre ":"
      let postGroups := if post.data.isEmpty then [] else goSplit post ":"
      match parseGroupsToBytes false preGroups, parseGroupsToBytes true postGroups with
      | some preBs, some postBs =>
        if preBs.length + postBs.length ≤ 14 then
          some (preBs ++ List.replicate (16 - preBs.length - postBs.length) 0 ++ postBs)
        else none
      | _, _ => none
    | _ => none

/-- Go's 16-byte `As16` form of an IPv4 address (the v4-in-v6 mapping). -/
def v4InV6 (q : List Nat) : List Nat :=
  List.replicate 10 0 ++ [255, 255] ++ q

/-- A parsed address: its 16-byte form plus whether it parsed as IPv4
(which fixes `BitLen` to 32 rather than 128). -/
structure GoAddr where
  is4 : Bool
  bytes : List Nat
deriving DecidableEq, Repr

/-- `net/netip.ParseAddr` dispatches on the first `.`, `:` or `%`. -/
def firstSep : List Char → Option Char
  | [] => none
  | c :: cs => if c = '.' ∨ c = ':' ∨ c = '%' then some c else firstSep cs

/-- `net/netip.ParseAddr` (with zones rejected, as `net.ParseIP` and
`net.ParseCIDR` both do). -/
def parseAddr (s : String) : Option GoAddr :=
  match firstSep s.data with
  | some '.' => (parseIPv4 s).map (fun q => ⟨true, v4InV6 q⟩)
  | some ':' => (parseIPv6 s).map (fun bs => ⟨false, bs⟩)
  | _ => none

/-- `net.ParseIP`: the 16-byte form on success, `[]` (Go `nil`) on failure. -/
def ParseIP (s : String) : List Nat :=
  match parseAddr s with
  | some a => a.bytes
  | none => []

/-- `net.CIDRMask`: `ones` leading one bits over the given number of bytes. -/
def cidrMaskBytes : Nat → Nat → List Nat
  | 0, _ => []
  | l + 1, ones =>
    (if ones ≥ 8 then 255 else 255 - (255 >>> ones)) :: cidrMaskBytes l (ones - 8)

/-- Byte-wise `and` of two equally long byte lists. -/
def andBytes : List Nat → List Nat → List Nat
  | x :: xs, y :: ys => (x &&& y) :: andBytes xs ys
  | _, _ => []

/-- Cut at the first occurrence of a character (`strings.IndexByte` plus the
two slices `ParseCIDR` takes around it). -/
def cutFirst? (sep : Char) : List Char → Option (List Char × List Char)
  | [] => none
  | c :: cs =>
    if c = sep then some ([], cs)
    else
      match cutFirst? sep cs with
      | some (pre, post) => some (c :: pre, post)
      | none => none

/-- A `net.IPNet`: masked network number plus mask, as byte lists. -/
structure IPNet where
  ip : List Nat
  mask : List Nat
deriving DecidableEq, Repr

/-- `net.ParseCIDR`: split at the first slash, parse the address, parse the
prefix length as a decimal bounded by the address's bit length, and mask. -/
def ParseCIDR (s : String) : Option IPNet :=
  match cutFirst? '/' s.data with
  | none => none
  | some (addrChars, maskChars) =>
    match parseAddr (String.mk addrChars) with
    | none => none
    | some a =>
      let bits := if a.is4 then 32 else 128
      match goToNat? (String.mk maskChars) with
      | none => none
      | some n =>
        if n ≤ bits then
          let m := cidrMaskBytes (bits / 8) n
          let base := if a.is4 then a.bytes.drop 12 else a.bytes
          some ⟨andBytes base m, m⟩
        else none

/-- `(net.IP).To4`: keep 4-byte addresses, unwrap v4-in-v6 16-byte ones. -/
def goTo4 (ip : List Nat) : Option (List Nat) :=
  if ip.length = 4 then some ip
  else if ip.length = 16 ∧ ip.take 10 = List.replicate 10 0
      ∧ ip.getD 10 0 = 255 ∧ ip.getD 11 0 = 255 then
    some (ip.drop 12)
  else none

/-- The mask-length adjustment of `net.networkNumberAndMask`. -/
def selectMask (ip m : List Nat) : List Nat × List Nat :=
  if m.length = 4 then
    if ip.length ≠ 4 then ([], []) else (ip, m)
  else if m.length = 16 then
    if ip.length = 4 then (ip, m.drop 12) else (ip, m)
  else ([], [])

/-- `net.networkNumberAndMask`: normalize the network number via `To4` and
align the mask's length; `([], [])` stands for Go's `nil, nil`. -/
def networkNumberAndMask (n : IPNet) : List Nat × List Nat :=
  match goTo4 n.ip with
  | some ip4 => selectMask ip4 n.mask
  | none => if n.ip.length ≠ 16 then ([], []) else selectMask n.ip n.mask

/-- The byte-comparison loop of `(*net.IPNet).Contains`. -/
def maskedEq (nn m ip : List Nat) : Bool :=
  (List.range ip.length).all
    (fun i => (nn.getD i 0 &&& m.getD i 0) == (ip.getD i 0 &&& m.getD i 0))

/-- `(*net.IPNet).Contains`: convert the candidate with `To4` when possible,
require equal lengths, compare under the mask. -/
def ipnetContains (n : IPNet) (ip : List Nat) : Bool :=
  let nm := networkNumberAndMask n
  let candidate :=
    match goTo4 ip with
    | some x => x
    | none => ip
  if candidate.length ≠ nm.1.length then false
  else maskedEq nm.1 nm.2 candidate

/-- Lines 100-107 of `Validate`: append `/32` (no colon present) or `/128`
(colon present) when the spec lacks an explicit prefix length. -/
def normalizeSpec (element : String) : String :=
  if ¬ goContains element "/" then
    if ¬ goContains element ":" then element ++ "/32" else element ++ "/128"
  else element

/-- The membership loop of `Validate` (src/spf.go lines 99-117): the first
CIDR parse failure aborts with that error, the first containing block returns
true, otherwise false with no error. -/
def checkIPs (ip : String) : List String → Bool × Option GoError
  | [] => (false, none)
  | element :: rest =>
    let elementWithCidr := normalizeSpec element
    match ParseCIDR elementWithCidr with
    | none => (false, some (.cidrParseFailure elementWithCidr))
    | some cidrnet =>
      let ipAddress := ParseIP ip
      if ipnetContains cidrnet ipAddress then (true, none)
      else checkIPs ip rest

/-- `(*spfChecker).Validate` (src/spf.go lines 78-118). Returns the Go
`(bool, error)` pair, the updated cache, and the number of TXT lookups
issued during the call. -/
def Validate (dns : DNS) (fuel : Nat) (cache : Cache) (ip domain : String) :
    (Bool × Option GoError) × Cache × Nat :=
  match LookupSPFRecords dns cache domain with
  | ((_, some e), cache', n) =>
    if e = .errNoSPFRecords then ((false, none), cache', n)
    else ((false, some e), cache', n)
  | ((spfRecordList, none), cache', n) =>
    let spfRecord := spfRecordList.headD ""
    -- lines 87-90: the vestigial manipulation of the final token
    let splitSPFRecord := goSplit spfRecord " "
    let allRecord := splitSPFRecord.getLastD ""
    let allRecordSplit := goSplit allRecord "a"
    let allRecord := allRecordSplit.headD ""
    match getIPsForRecord dns fuel domain spfRecord with
    | ((_, some e), n2) => ((false, some e), cache', n + n2)
    | ((ips, none), n2) => (checkIPs ip ips, cache', n + n2)

/-- `(*spfChecker).Validate` with the vestigial statements of lines 87-90
removed; every other statement is unchanged. -/
def ValidateNoDead (dns : DNS) (fuel : Nat) (cache : Cache) (ip domain : String) :
    (Bool × Option GoError) × Cache × Nat :=
  match LookupSPFRecords dns cache domain with
  | ((_, some e), cache', n) =>
    if e = .errNoSPFRecords then ((false, none), cache', n)
    else ((false, some e), cache', n)
  | ((spfRecordList, none), cache', n) =>
    let spfRecord := spfRecordList.headD ""
    match getIPsForRecord dns fuel domain spfRecord with
    | ((_, some e), n2) => ((false, some e), cache', n + n2)
    | ((ips, none), n2) => (checkIPs ip ips, cache', n + n2)

/-- `processEmail` (src/spf.go lines 133-140): split on `@`, demand exactly
two parts, return the second. -/
def processEmail (email : String) : String × Option GoError :=
  let splitEmail := goSplit email "@"
  if splitEmail.length ≠ 2 then ("", some .atSymbolCount)
  else (splitEmail.getD 1 "", none)

/-- `GetDomainFromEmail` (src/spf.go lines 122-128); `mail.ParseAddress` is an
external collaborator, modelled as a function returning the parsed address's
`Address` field together with a Go-style error. -/
def GetDomainFromEmail (parseAddress : String → String × Option GoError)
    (email : String) : String × Option GoError :=
  match parseAddress email with
  | (_, some e) => ("", some e)
  | (parsedAddress, none) => processEmail (goToLower (goTrimSpace parsedAddress))

/-!
Concrete resolver fixtures used by witnesses, counterexamples and
evaluations.
-/

/-- A resolver answering every TXT query with an empty record set: the state
of `cathalgarvey.me` in the repository's own test (src/email_test.go line 30,
"cathalgarvey.me has no SPF record set"). -/
def dnsNoRecords : DNS :=
  ⟨fun _ => ([], none), fun _ => ([], none), fun _ => ([], none)⟩

/-- A resolver whose TXT records exist but none begins with `v=spf1`. -/
def dnsNoSPFText : DNS :=
  ⟨fun _ => (["hello", "world=abc"], none), fun _ => ([], none), fun _ => ([], none)⟩

/-- A resolver publishing two `v=spf1` records for every domain. -/
def dnsTwoPolicies : DNS :=
  ⟨fun _ => (["v=spf1 ip4:1.2.3.4", "v=spf1 ip4:5.6.7.8"], none),
    fun _ => ([], none), fun _ => ([], none)⟩

/-- The include scenario of the specification: `example.com` delegates to
`other.example`, which allows `10.0.0.0/8`. -/
def dnsInclude : DNS :=
  ⟨fun d =>
      if d = "example.com" then (["v=spf1 include:other.example"], none)
      else if d = "other.example" then (["v=spf1 ip4:10.0.0.0/8"], none)
      else ([], some (.dnsFailure "nxdomain")),
    fun _ => ([], none), fun _ => ([], none)⟩

/-- A two-level include chain whose innermost TXT lookup fails. -/
def dnsNestedBroken : DNS :=
  ⟨fun d =>
      if d = "example.com" then (["v=spf1 include:mid.example"], none)
      else if d = "mid.example" then (["v=spf1 include:broken.example"], none)
      else ([], some (.dnsFailure "nxdomain")),
    fun _ => ([], none), fun _ => ([], none)⟩

/-- An oracle for the `mail.ParseAddress` collaborator covering the
specification's example addresses. -/
def okParse : String → String × Option GoError := fun s =>
  if s = "Cathal <cathalGarvey@garvey.me>" then ("cathalGarvey@garvey.me", none)
  else if s = "cathal@Garvey.Me" then ("cathal@Garvey.Me", none)
  else ("", some (.addressSyntax "mail: missing @ in addr-spec"))

/-- Claim-side predicate (not itself from the source): the spec, once
normalized, parses as a CIDR block that does not contain the candidate IP.
Used to state the scan-order properties of the membership loop. -/
def specParsesAndMisses (ip spec : String) : Bool :=
  match ParseCIDR (normalizeSpec spec) with
  | some n => ! ipnetContains n (ParseIP ip)
  | none => false

/-!
Theorems.
-/

/-- C9: the manipulation of the policy string's last token inside `Validate`
(splitting the final space-delimited token on the literal character `a` and
keeping the part before it, src/spf.go lines 87-90) has no effect on the
result: `Validate` is extensionally equal to the same function with those
statements removed. -/
theorem validate_dead_code_has_no_effect (dns : DNS) (fuel : Nat) (cache : Cache)
    (ip domain : String) :
    Validate dns fuel cache ip domain = ValidateNoDead dns fuel cache ip domain := rfl

/-- The membership loop never pairs `true` with an error. -/
theorem checkIPs_true_no_error (ip : String) (specs : List String) :
    (checkIPs ip specs).2 = none ∨ (checkIPs ip specs).1 = false := by
  induction specs with
  | nil => exact Or.inr rfl
  | cons e rest ih =>
    simp only [checkIPs]
    split
    · exact Or.inr rfl
    · split
      · exact Or.inl rfl
      · exact ih

/-- C10: whenever `Validate` returns a non-nil error its boolean result is
false; the pair `(true, non-nil error)` is unreachable. -/
theorem validate_error_implies_denied (dns : DNS) (fuel : Nat) (cache : Cache)
    (ip domain : String) :
    (Validate dns fuel cache ip domain).1.2 = none ∨
      (Validate dns fuel cache ip domain).1.1 = false := by
  unfold Validate
  rcases hl : LookupSPFRecords dns cache domain with ⟨⟨l, e?⟩, c2, n⟩
  cases e? with
  | some e => by_cases he : e = GoError.errNoSPFRecords <;> simp [he]
  | none =>
    dsimp only
    rcases hg : getIPsForRecord dns fuel domain (l.headD "") with ⟨⟨ips, e2?⟩, n2⟩
    cases e2? with
    | some e2 => simp
    | none => simpa using checkIPs_true_no_error ip ips

/-- C1 (code bug): for a domain with no SPF policy, `Validate` does not
return `(true, nil)` as the specification's testable property and the
repository's own test (src/email_test.go lines 30-33) demand: with no TXT
records at all it returns `(false, nil)`, and with TXT records none of which
begins with `v=spf1` it returns `(false, non-nil error)`. -/
theorem validate_no_policy_is_not_allow :
    Validate dnsNoRecords 100 [] "93.95.224.70" "cathalgarvey.me" =
      ((false, none), [], 1) ∧
    Validate dnsNoSPFText 100 [] "93.95.224.70" "cathalgarvey.me" =
      ((false, some .tooManySPFRecords), [], 1) :=
  ⟨by decide, by decide⟩

/-- C2 (code bug): a DNS failure occurring inside the recursive expansion of
an `include` mechanism is silently discarded, not propagated: with
`example.com → include:mid.example → include:broken.example` and the TXT
lookup of `broken.example` failing, `Validate` returns `(false, nil)` (after
issuing all three lookups) instead of the error. -/
theorem validate_nested_include_error_swallowed :
    (dnsNestedBroken.lookupTXT "broken.example").2 = some (.dnsFailure "nxdomain") ∧
    Validate dnsNestedBroken 100 [] "1.2.3.4" "example.com" =
      ((false, none), [("example.com", ["v=spf1 include:mid.example"])], 3) :=
  ⟨by decide, by decide⟩

/-- C4: a domain whose TXT records contain two or more `v=spf1` strings makes
`Validate` return `allowed = false` together with the (non-nil) ambiguity
error produced by `findSPFRecord`; the records are never merged. -/
theorem validate_ambiguous_policy_rejects (dns : DNS) (fuel : Nat) (cache : Cache)
    (ip domain : String)
    (hmiss : cacheFind cache domain = none)
    (herr : (dns.lookupTXT domain).2 = none)
    (htwo : 2 ≤ ((dns.lookupTXT domain).1.filter
      (fun r => goHasPrefix r "v=spf1")).length) :
    Validate dns fuel cache ip domain = ((false, some .tooManySPFRecords), cache, 1) := by
  rcases ht : dns.lookupTXT domain with ⟨recs, e?⟩
  rw [ht] at herr htwo
  simp only at herr htwo
  subst herr
  have hne : recs.isEmpty = false := by
    cases recs
    · simp at htwo
    · rfl
  have hfind : findSPFRecord recs = ([], some .tooManySPFRecords) := by
    simp only [findSPFRecord]
    rw [if_pos]
    exact Or.inr htwo
  unfold Validate LookupSPFRecords
  rw [hmiss, ht]
  simp [hne, hfind]

/-- Witness for `validate_ambiguous_policy_rejects` at a concrete resolver
publishing two policies. -/
theorem validate_ambiguous_policy_rejects_witness :
    Validate dnsTwoPolicies 100 [] "1.2.3.4" "example.com" =
      ((false, some .tooManySPFRecords), [], 1) :=
  validate_ambiguous_policy_rejects dnsTwoPolicies 100 [] "1.2.3.4" "example.com"
    (by decide) (by decide) (by decide)

/-- `Validate` leaves the cache exactly as `LookupSPFRecords` left it. -/
theorem validate_cache_eq (dns : DNS) (fuel : Nat) (cache : Cache) (ip domain : String) :
    (Validate dns fuel cache ip domain).2.1 = (LookupSPFRecords dns cache domain).2.1 := by
  unfold Validate
  rcases hl : LookupSPFRecords dns cache domain with ⟨⟨l, e?⟩, c2, n⟩
  cases e? with
  | some e => by_cases he : e = GoError.errNoSPFRecords <;> simp [he]
  | none =>
    dsimp only
    rcases hg : getIPsForRecord dns fuel domain (l.headD "") with ⟨⟨ips, eg⟩, n2⟩
    cases eg <;> simp

/-- Re-querying `LookupSPFRecords` with the cache it produced returns the
same value and leaves that cache unchanged. -/
theorem lookupSPF_stable (dns : DNS) (cache : Cache) (domain : String) :
    (LookupSPFRecords dns (LookupSPFRecords dns cache domain).2.1 domain).1 =
        (LookupSPFRecords dns cache domain).1 ∧
    (LookupSPFRecords dns (LookupSPFRecords dns cache domain).2.1 domain).2.1 =
        (LookupSPFRecords dns cache domain).2.1 := by
  unfold LookupSPFRecords
  rcases hc : cacheFind cache domain with _ | v
  case some => simp [hc]
  case none =>
    rcases ht : dns.lookupTXT domain with ⟨recs, e?⟩
    cases e? with
    | some e => simp [hc, ht]
    | none =>
      by_cases hr : recs.isEmpty
      · simp [hc, ht, hr]
      · rcases hf : findSPFRecord recs with ⟨rs, f?⟩
        cases f? with
        | some f => simp [hc, ht, hr, hf]
        | none =>
          by_cases hrs : rs.isEmpty
          · simp [hc, ht, hr, hf, hrs]
          · simp [hc, ht, hr, hf, hrs, cacheFind]

/-- The result pair of `Validate` depends on the cache only through the
record list and error that `LookupSPFRecords` returns. -/
theorem validate_result_of_lookup (dns : DNS) (fuel : Nat) (ip domain : String)
    (c c' : Cache)
    (h : (LookupSPFRecords dns c domain).1 = (LookupSPFRecords dns c' domain).1) :
    (Validate dns fuel c ip domain).1 = (Validate dns fuel c' ip domain).1 := by
  unfold Validate
  rcases h1 : LookupSPFRecords dns c domain with ⟨⟨l, e?⟩, c2, n⟩
  rcases h2 : LookupSPFRecords dns c' domain with ⟨⟨l', e2?⟩, c3, n'⟩
  rw [h1, h2] at h
  simp only [Prod.mk.injEq] at h
  obtain ⟨hl', he'⟩ := h
  subst hl'
  subst he'
  cases e? with
  | some e => by_cases he : e = GoError.errNoSPFRecords <;> simp [he]
  | none =>
    dsimp only
    rcases hg : getIPsForRecord dns fuel domain (l.headD "") with ⟨⟨ips, eg⟩, n2⟩
    cases eg <;> simp

/-- A mechanism list without `include` tokens triggers no TXT lookups during
resolution, whatever the fuel. -/
theorem spfLoop_count_no_include (dns : DNS) :
    ∀ (fuel : Nat) (domain : String) (acc sections : List String),
      (∀ e ∈ sections, goHasPrefix e "include" = false) →
      (spfLoop dns fuel domain acc sections).2 = 0
  | 0, _, _, _, _ => rfl
  | _ + 1, _, _, [], _ => rfl
  | fuel + 1, domain, acc, element :: rest, h => by
    have he : goHasPrefix element "include" = false := h element (List.mem_cons_self _ _)
    have hrest : ∀ e ∈ rest, goHasPrefix e "include" = false :=
      fun e hx => h e (List.mem_cons_of_mem _ hx)
    rw [spfLoop]
    simp only [he, Bool.false_eq_true, if_false]
    split
    · exact spfLoop_count_no_include dns fuel domain acc rest hrest
    · split
      · exact spfLoop_count_no_include dns fuel domain _ rest hrest
      · split
        · split
          · rfl
          · exact spfLoop_count_no_include dns fuel domain _ rest hrest
        · exact spfLoop_count_no_include dns fuel domain acc rest hrest

/-- On a cache hit, the TXT lookups of a `Validate` call are exactly those of
mechanism resolution. -/
theorem validate_count_on_hit (dns : DNS) (fuel : Nat) (cache : Cache)
    (ip domain : String) (rs : List String) (h : cacheFind cache domain = some rs) :
    (Validate dns fuel cache ip domain).2.2 =
      (getIPsForRecord dns fuel domain (rs.headD "")).2 := by
  have hl : LookupSPFRecords dns cache domain = ((rs, none), cache, 0) := by
    unfold LookupSPFRecords
    rw [h]
  unfold Validate
  rw [hl]
  dsimp only
  rcases hg : getIPsForRecord dns fuel domain (rs.headD "") with ⟨⟨ips, eg⟩, n2⟩
  cases eg <;> simp

/-- C3 counterexample: for a policy with an `include` mechanism the first
`Validate` call issues two TXT lookups and the second call still issues one
(the include target is looked up again, bypassing the cache), so the mock
resolver's TXT counter does not stay at 1. -/
theorem validate_second_call_still_queries :
    (Validate dnsInclude 100 [] "10.1.2.3" "example.com").2.2 = 2 ∧
    (Validate dnsInclude 100 (Validate dnsInclude 100 [] "10.1.2.3" "example.com").2.1
        "10.1.2.3" "example.com").2.2 = 1 :=
  ⟨by decide, by decide⟩

/-- C3 (amended): two sequential `Validate` calls with the same IP and domain
produce identical results, and the second call performs no TXT lookup for the
domain's own policy (the cache is hit, so its lookups are exactly those of
mechanism resolution); TXT lookups for `include` mechanisms are not cached
and recur on every call, so the second call's lookup count is zero exactly
when the cached policy contains no `include` token. -/
theorem validate_cache_idempotence_amended :
    (∀ (dns : DNS) (fuel : Nat) (cache : Cache) (ip domain : String),
        (Validate dns fuel (Validate dns fuel cache ip domain).2.1 ip domain).1 =
          (Validate dns fuel cache ip domain).1) ∧
    (∀ (dns : DNS) (fuel : Nat) (cache : Cache) (ip domain : String) (rs : List String),
        cacheFind cache domain = some rs →
        (Validate dns fuel cache ip domain).2.2 =
          (getIPsForRecord dns fuel domain (rs.headD "")).2) ∧
    (∀ (dns : DNS) (fuel : Nat) (domain record : String),
        (∀ e ∈ goSplit record " ", goHasPrefix e "include" = false) →
        (getIPsForRecord dns fuel domain record).2 = 0) := by
  refine ⟨?_, validate_count_on_hit, ?_⟩
  · intro dns fuel cache ip domain
    have h := (lookupSPF_stable dns cache domain).1
    have hc := validate_cache_eq dns fuel cache ip domain
    rw [hc]
    exact validate_result_of_lookup dns fuel ip domain _ cache h
  · intro dns fuel domain record h
    exact spfLoop_count_no_include dns fuel domain [] (goSplit record " ") h

/-- Witness for `validate_cache_idempotence_amended` at concrete resolvers:
the include scenario repeats identically, and a cached include-free policy is
validated with zero TXT lookups. -/
theorem validate_cache_idempotence_amended_witness :
    (Validate dnsInclude 100 (Validate dnsInclude 100 [] "10.1.2.3" "example.com").2.1
        "10.1.2.3" "example.com").1 =
      (Validate dnsInclude 100 [] "10.1.2.3" "example.com").1 ∧
    (Validate dnsNoRecords 100 [("d.example", ["v=spf1 ip4:10.0.0.0/8"])]
        "1.2.3.4" "d.example").2.2 = 0 := by
  constructor
  · exact validate_cache_idempotence_amended.1 dnsInclude 100 [] "10.1.2.3" "example.com"
  · have h1 := validate_cache_idempotence_amended.2.1 dnsNoRecords 100
      [("d.example", ["v=spf1 ip4:10.0.0.0/8"])] "1.2.3.4" "d.example"
      ["v=spf1 ip4:10.0.0.0/8"] (by decide)
    have h2 := validate_cache_idempotence_amended.2.2 dnsNoRecords 100 "d.example"
      (["v=spf1 ip4:10.0.0.0/8"].headD "") (by decide)
    rw [h1]
    exact h2

/-- A spec that parses and misses is skipped by the membership loop. -/
theorem checkIPs_cons_miss (ip s : String) (rest : List String)
    (h : specParsesAndMisses ip s = true) :
    checkIPs ip (s :: rest) = checkIPs ip rest := by
  unfold specParsesAndMisses at h
  simp only [checkIPs]
  rcases hp : ParseCIDR (normalizeSpec s) with _ | net
  · rw [hp] at h
    simp at h
  · rw [hp] at h
    simp only at h
    simp only [Bool.not_eq_true'] at h
    simp [h]

/-- C5: the membership loop normalizes and scans the specs in order: a CIDR
parse failure reached before any containing spec aborts with that parse
error and `allowed = false`; otherwise the first containing spec returns
true (short-circuit, first match wins); and if no spec contains the
candidate the result is `(false, nil)`. -/
theorem checkIPs_scan_order :
    (∀ (ip bad : String) (pre rest : List String),
        (∀ s ∈ pre, specParsesAndMisses ip s = true) →
        ParseCIDR (normalizeSpec bad) = none →
        checkIPs ip (pre ++ bad :: rest) =
          (false, some (.cidrParseFailure (normalizeSpec bad)))) ∧
    (∀ (ip hit : String) (pre rest : List String) (net : IPNet),
        (∀ s ∈ pre, specParsesAndMisses ip s = true) →
        ParseCIDR (normalizeSpec hit) = some net →
        ipnetContains net (ParseIP ip) = true →
        checkIPs ip (pre ++ hit :: rest) = (true, none)) ∧
    (∀ (ip : String) (specs : List String),
        (∀ s ∈ specs, specParsesAndMisses ip s = true) →
        checkIPs ip specs = (false, none)) := by
  refine ⟨?_, ?_, ?_⟩
  · intro ip bad pre rest hpre hbad
    induction pre with
    | nil =>
      simp only [List.nil_append, checkIPs]
      rw [hbad]
    | cons s pre ih =>
      rw [List.cons_append, checkIPs_cons_miss ip s _ (hpre s (List.mem_cons_self _ _))]
      exact ih (fun x hx => hpre x (List.mem_cons_of_mem _ hx))
  · intro ip hit pre rest net hpre hhit hcont
    induction pre with
    | nil =>
      simp only [List.nil_append, checkIPs]
      rw [hhit]
      simp [hcont]
    | cons s pre ih =>
      rw [List.cons_append, checkIPs_cons_miss ip s _ (hpre s (List.mem_cons_self _ _))]
      exact ih (fun x hx => hpre x (List.mem_cons_of_mem _ hx))
  · intro ip specs hspecs
    induction specs with
    | nil => rfl
    | cons s specs ih =>
      rw [checkIPs_cons_miss ip s _ (hspecs s (List.mem_cons_self _ _))]
      exact ih (fun x hx => hspecs x (List.mem_cons_of_mem _ hx))

/-- Witness for `checkIPs_scan_order`: a miss followed by a malformed spec
aborts, a miss followed by a hit succeeds even with garbage behind it, and
all-miss lists return `(false, nil)`. -/
theorem checkIPs_scan_order_witness :
    checkIPs "1.2.3.4" ["10.0.0.0/8", "banana", "1.0.0.0/8"] =
      (false, some (.cidrParseFailure "banana/32")) ∧
    checkIPs "1.2.3.4" ["10.0.0.0/8", "1.0.0.0/8", "banana"] = (true, none) ∧
    checkIPs "1.2.3.4" ["10.0.0.0/8", "2.0.0.0/8"] = (false, none) := by
  refine ⟨?_, ?_, ?_⟩
  · exact checkIPs_scan_order.1 "1.2.3.4" "banana" ["10.0.0.0/8"] ["1.0.0.0/8"]
      (by decide) (by decide)
  · exact checkIPs_scan_order.2.1 "1.2.3.4" "1.0.0.0/8" ["10.0.0.0/8"] ["banana"]
      ⟨[1, 0, 0, 0], [255, 0, 0, 0]⟩ (by decide) (by decide) (by decide)
  · exact checkIPs_scan_order.2.2 "1.2.3.4" ["10.0.0.0/8", "2.0.0.0/8"] (by decide)

/-- C6: a spec without a slash is suffixed with `/32` when it has no colon
and `/128` when it has one; the mechanism `ip4:93.95.224.70` resolves to the
bare spec `93.95.224.70`, whose membership test is identical to that of
`93.95.224.70/32` for every candidate string, succeeding exactly on that IP
and on no other address of the surrounding /24. -/
theorem bare_ip_normalization :
    (∀ spec : String, goContains spec "/" = false → goContains spec ":" = false →
        normalizeSpec spec = spec ++ "/32") ∧
    (∀ spec : String, goContains spec "/" = false → goContains spec ":" = true →
        normalizeSpec spec = spec ++ "/128") ∧
    (∀ (dns : DNS) (domain : String),
        (getIPsForRecord dns 100 domain "v=spf1 ip4:93.95.224.70").1 =
          (["93.95.224.70"], none)) ∧
    (∀ ip : String, checkIPs ip ["93.95.224.70"] = checkIPs ip ["93.95.224.70/32"]) ∧
    (∀ (ip : String) (d : Nat), d ≤ 255 → ParseIP ip = v4InV6 [93, 95, 224, d] →
        (checkIPs ip ["93.95.224.70"] = (true, none) ↔ d = 70)) := by
  refine ⟨?_, ?_, ?_, ?_, ?_⟩
  · intro spec h1 h2
    unfold normalizeSpec
    rw [h1, h2]
    simp
  · intro spec h1 h2
    unfold normalizeSpec
    rw [h1, h2]
    simp
  · intro dns domain
    rfl
  · intro ip
    rfl
  · intro ip d hd hip
    have h255 : d &&& 255 = d := by
      have h := Nat.and_pow_two_sub_one_eq_mod d 8
      rw [show (2 : Nat) ^ 8 - 1 = 255 by norm_num] at h
      rw [h, Nat.mod_eq_of_lt (by omega)]
    have hmain : checkIPs ip ["93.95.224.70"] =
        if ipnetContains ⟨[93, 95, 224, 70], [255, 255, 255, 255]⟩ (ParseIP ip) = true
        then ((true, none) : Bool × Option GoError) else (false, none) := rfl
    have hstep : ipnetContains ⟨[93, 95, 224, 70], [255, 255, 255, 255]⟩
        (v4InV6 [93, 95, 224, d]) =
        ((93 &&& 255 == 93 &&& 255) && ((95 &&& 255 == 95 &&& 255) &&
          ((224 &&& 255 == 224 &&& 255) && ((70 &&& 255 == d &&& 255) && true)))) := rfl
    by_cases hdd : d = 70
    · subst hdd
      rw [hmain, hip, hstep]
      simp
    · rw [hmain, hip, hstep]
      have h70 : (70 &&& 255 == d &&& 255) = false := by
        rw [h255, show (70 : Nat) &&& 255 = 70 from by decide]
        simp only [beq_eq_false_iff_ne, ne_eq]
        omega
      simp [h70, hdd]

/-- Witness for `bare_ip_normalization` at concrete specs and candidates. -/
theorem bare_ip_normalization_witness :
    normalizeSpec "93.95.224.70" = "93.95.224.70" ++ "/32" ∧
    normalizeSpec "::1" = "::1" ++ "/128" ∧
    (checkIPs "93.95.224.70" ["93.95.224.70"] = (true, none) ↔ (70 : Nat) = 70) ∧
    (checkIPs "93.95.224.71" ["93.95.224.70"] = (true, none) ↔ (71 : Nat) = 70) := by
  refine ⟨?_, ?_, ?_, ?_⟩
  · exact bare_ip_normalization.1 "93.95.224.70" (by decide) (by decide)
  · exact bare_ip_normalization.2.1 "::1" (by decide) (by decide)
  · exact bare_ip_normalization.2.2.2.2 "93.95.224.70" 70 (by decide) (by decide)
  · exact bare_ip_normalization.2.2.2.2 "93.95.224.71" 71 (by decide) (by decide)

/-- C7: an `include:<d>` token triggers a fresh TXT lookup for `<d>`, the
extraction of its single policy, and a recursive resolution with `<d>` as the
new domain whose specs are appended in place of the token (depth-first,
order-preserving); in the specification's two-domain scenario every IP of
`10.0.0.0/8` validates. -/
theorem include_recursion :
    (∀ (dns : DNS) (fuel : Nat) (domain element p : String)
        (acc rest recs specs : List String) (n : Nat),
        goHasPrefix "v=spf1" element = false →
        goHasPrefix element "ip4" = false →
        goHasPrefix element "include" = true →
        dns.lookupTXT (goReplaceAll element "include:" "") = (recs, none) →
        findSPFRecord recs = ([p], none) →
        spfLoop dns fuel (goReplaceAll element "include:" "") [] (goSplit p " ") =
          ((specs, none), n) →
        spfLoop dns (fuel + 1) domain acc (element :: rest) =
          ((spfLoop dns fuel domain (acc ++ specs) rest).1,
            1 + n + (spfLoop dns fuel domain (acc ++ specs) rest).2)) ∧
    (∀ (ip : String) (b c d : Nat), ParseIP ip = v4InV6 [10, b, c, d] →
        (Validate dnsInclude 100 [] ip "example.com").1 = (true, none)) := by
  constructor
  · intro dns fuel domain element p acc rest recs specs n h1 h2 h3 ht hf hr
    rw [spfLoop]
    simp only [h1, h2, h3, Bool.false_eq_true, if_false, eq_self_iff_true, if_true,
      ht, hf, List.headD_cons]
    rw [hr]
  · intro ip b c d hip
    have hv : Validate dnsInclude 100 [] ip "example.com" =
        (checkIPs ip ["10.0.0.0/8"],
          [("example.com", ["v=spf1 include:other.example"])], 2) := rfl
    have hchk : checkIPs ip ["10.0.0.0/8"] =
        if ipnetContains ⟨[10, 0, 0, 0], [255, 0, 0, 0]⟩ (ParseIP ip) = true
        then ((true, none) : Bool × Option GoError) else (false, none) := rfl
    have hstep : ipnetContains ⟨[10, 0, 0, 0], [255, 0, 0, 0]⟩ (v4InV6 [10, b, c, d]) =
        ((10 &&& 255 == 10 &&& 255) && ((0 &&& 0 == b &&& 0) &&
          ((0 &&& 0 == c &&& 0) && ((0 &&& 0 == d &&& 0) && true)))) := rfl
    have hcont : ipnetContains ⟨[10, 0, 0, 0], [255, 0, 0, 0]⟩ (ParseIP ip) = true := by
      rw [hip, hstep]
      simp
    rw [hv]
    dsimp only
    rw [hchk, hcont]
    rfl

/-- Witness for `include_recursion`: the generic step instantiated at the
`include:other.example` token of `dnsInclude`, and the end-to-end scenario at
the concrete source IP `10.1.2.3`. -/
theorem include_recursion_witness :
    spfLoop dnsInclude 51 "example.com" [] ["include:other.example"] =
      ((spfLoop dnsInclude 50 "example.com" ([] ++ ["10.0.0.0/8"]) []).1,
        1 + 0 + (spfLoop dnsInclude 50 "example.com" ([] ++ ["10.0.0.0/8"]) []).2) ∧
    (Validate dnsInclude 100 [] "10.1.2.3" "example.com").1 = (true, none) := by
  constructor
  · exact include_recursion.1 dnsInclude 50 "example.com" "include:other.example"
      "v=spf1 ip4:10.0.0.0/8" [] [] ["v=spf1 ip4:10.0.0.0/8"] ["10.0.0.0/8"] 0
      (by decide) (by decide) (by decide) (by decide) (by decide) (by decide)
  · exact include_recursion.2 "10.1.2.3" 1 2 3 (by decide)

/-- Splitting on a character absent from the subject yields a single field. -/
theorem splitCharsAux_no_sep (c : Char) :
    ∀ (s : List Char) (gas : Nat) (acc : List Char), s.length ≤ gas → c ∉ s →
      splitCharsAux [c] gas s acc = [acc.reverse ++ s]
  | [], 0, acc, _, _ => by simp [splitCharsAux]
  | [], _ + 1, acc, _, _ => by simp [splitCharsAux]
  | x :: xs, 0, acc, hgas, _ => by simp at hgas
  | x :: xs, gas + 1, acc, hgas, hmem => by
    have hxc : ¬ (c = x) := fun h => hmem (h ▸ List.mem_cons_self x xs)
    simp only [splitCharsAux, dropPrefixChars?, if_neg hxc]
    rw [splitCharsAux_no_sep c xs gas (x :: acc)
        (by simp only [List.length_cons] at hgas; omega)
        (fun h => hmem (List.mem_cons_of_mem _ h))]
    simp

/-- Splitting at the unique occurrence of a character yields two fields. -/
theorem splitCharsAux_single_sep (c : Char) :
    ∀ (l d : List Char) (gas : Nat) (acc : List Char),
      (l ++ c :: d).length ≤ gas → c ∉ l → c ∉ d →
      splitCharsAux [c] gas (l ++ c :: d) acc = [acc.reverse ++ l, d]
  | l, d, 0, acc, hgas, _, _ => by
    simp only [List.length_append, List.length_cons] at hgas
    omega
  | [], d, gas + 1, acc, hgas, _, hd => by
    simp only [List.nil_append] at hgas ⊢
    simp only [splitCharsAux, dropPrefixChars?, eq_self_iff_true, if_true]
    rw [splitCharsAux_no_sep c d gas []
        (by simp only [List.length_cons] at hgas; omega) hd]
    simp
  | x :: l, d, gas + 1, acc, hgas, hl, hd => by
    have hxc : ¬ (c = x) := fun h => hl (h ▸ List.mem_cons_self x l)
    simp only [List.cons_append, splitCharsAux, dropPrefixChars?, if_neg hxc,
      List.append_eq]
    rw [splitCharsAux_single_sep c l d gas (x :: acc)
        (by simp only [List.cons_append, List.length_cons] at hgas; omega)
        (fun h => hl (List.mem_cons_of_mem _ h)) hd]
    simp

/-- `processEmail` on an address with exactly one `@` returns the part after
it. -/
theorem processEmail_split (l d : List Char)
    (hl : ('@' : Char) ∉ l) (hd : ('@' : Char) ∉ d) :
    processEmail (String.mk (l ++ '@' :: d)) = (String.mk d, none) := by
  have hsplit : goSplit (String.mk (l ++ '@' :: d)) "@" = [String.mk l, String.mk d] := by
    have h := splitCharsAux_single_sep '@' l d (l ++ '@' :: d).length [] le_rfl hl hd
    show (splitCharsAux ['@'] (l ++ '@' :: d).length (l ++ '@' :: d) []).map String.mk =
      [String.mk l, String.mk d]
    rw [h]
    simp
  unfold processEmail
  dsimp only
  rw [hsplit]
  simp

/-- C8: on a successfully parsed mailbox, `GetDomainFromEmail` returns the
part after the unique `@` of the trimmed, lowercased address — the domain
segment, lowercased — and it returns an error when the mailbox parse fails
or when the parsed address does not contain exactly one `@`. -/
theorem get_domain_from_email_correct :
    (∀ (parse : String → String × Option GoError) (email a : String) (l d : List Char),
        parse email = (a, none) →
        (goToLower (goTrimSpace a)).data = l ++ '@' :: d →
        ('@' : Char) ∉ l → ('@' : Char) ∉ d →
        GetDomainFromEmail parse email = (String.mk d, none)) ∧
    (∀ (parse : String → String × Option GoError) (email a : String) (e : GoError),
        parse email = (a, some e) →
        GetDomainFromEmail parse email = ("", some e)) ∧
    (∀ (parse : String → String × Option GoError) (email a : String),
        parse email = (a, none) →
        (goSplit (goToLower (goTrimSpace a)) "@").length ≠ 2 →
        GetDomainFromEmail parse email = ("", some .atSymbolCount)) := by
  refine ⟨?_, ?_, ?_⟩
  · intro parse email a l d hp hsplit hl hd
    have ha : goToLower (goTrimSpace a) = String.mk (l ++ '@' :: d) := by
      rw [← hsplit]
    unfold GetDomainFromEmail
    rw [hp]
    dsimp only
    rw [ha]
    exact processEmail_split l d hl hd
  · intro parse email a e hp
    unfold GetDomainFromEmail
    rw [hp]
  · intro parse email a hp hlen
    unfold GetDomainFromEmail
    rw [hp]
    dsimp only
    unfold processEmail
    dsimp only
    rw [if_pos hlen]

/-- Witness for `get_domain_from_email_correct` at the specification's
example addresses, through a concrete `mail.ParseAddress` oracle. -/
theorem get_domain_from_email_correct_witness :
    GetDomainFromEmail okParse "Cathal <cathalGarvey@garvey.me>" = ("garvey.me", none) ∧
    GetDomainFromEmail okParse "cathal@Garvey.Me" = ("garvey.me", none) ∧
    GetDomainFromEmail okParse "not an address" =
      ("", some (.addressSyntax "mail: missing @ in addr-spec")) := by
  refine ⟨?_, ?_, ?_⟩
  · exact get_domain_from_email_correct.1 okParse "Cathal <cathalGarvey@garvey.me>"
      "cathalGarvey@garvey.me" "cathalgarvey".data "garvey.me".data
      (by decide) (by decide) (by decide) (by decide)
  · exact get_domain_from_email_correct.1 okParse "cathal@Garvey.Me" "cathal@Garvey.Me"
      "cathal".data "garvey.me".data (by decide) (by decide) (by decide) (by decide)
  · exact get_domain_from_email_correct.2.1 okParse "not an address" ""
      (GoError.addressSyntax "mail: missing @ in addr-spec") (by decide)

end Spf
